import Mathlib

/-!
Verification development for `scrap_table.py`, an earthquake-report scraper:
a structured (JSON API) source adapter with normalization, an unstructured
(HTML table) fallback adapter, an acquisition orchestrator, and a DynamoDB
persistence sink with upsert-by-key semantics.

Shallow embedding conventions:
* Python scalar values are `PyVal`; numbers are abstracted by their `str()`
  rendering together with their truthiness (the only two observations the
  scraper makes of a number).
* Python dicts are association lists (`PyDict`, `Record`); a key genuinely
  absent from a dict is a key absent from the list, while a key mapped to
  Python `None` is an entry whose value is `PyVal.vnone`.
* `uuid.uuid4()` is modelled as an injective supply `mkUuid` indexed by a
  counter threaded through every operation that may generate an id.
* Python exceptions are `Except String`; the network fetches are modelled by
  passing the fetch outcome (`Except Unit payload`) as an argument, error
  standing for a transport/decode failure.
* `datetime.fromisoformat` (after the `T`→space replacement performed by the
  code) is modelled for the core grammar `YYYY-MM-DD[ HH:MM:SS]` with
  calendar validation; `strftime "%d/%m/%Y %H:%M:%S"` is modelled exactly.
* The DynamoDB table is an association list from key value (`id` attribute)
  to item; `batch_writer().put_item` is an upsert keyed by `id`.
-/

namespace ScrapTable

/-- A Python scalar value as observed by the scraper. `vnum` abstracts a
Python number by its `str()` rendering and its truthiness. -/
inductive PyVal where
  | vnone : PyVal
  | vstr (s : String) : PyVal
  | vnum (render : String) (truthy : Bool) : PyVal
  | vbool (b : Bool) : PyVal
deriving DecidableEq, Repr

/-- Python truthiness of a scalar value. -/
def pyTruthy : PyVal → Bool
  | .vnone => false
  | .vstr s => s ≠ ""
  | .vnum _ t => t
  | .vbool b => b

/-- Python `str()` of a scalar value. -/
def pyStr : PyVal → String
  | .vnone => "None"
  | .vstr s => s
  | .vnum r _ => r
  | .vbool b => if b then "True" else "False"

/-- A raw agency record: a Python dict, embedded as an association list. -/
abbrev PyDict := List (String × PyVal)

/-- `d.get(k)` with Python's default of `None` for a missing key. -/
def dget (d : PyDict) (k : String) : PyVal :=
  match d.find? (fun p => p.1 = k) with
  | some p => p.2
  | none => .vnone

/-- A canonical earthquake record: a Python dict built by the adapters. -/
abbrev Record := PyDict

/-- Python exceptions, abstracted by their message. -/
abbrev Exc := Except String

/-- `str(uuid.uuid4())`: the n-th value drawn from an injective supply of
fresh identifiers, modelling the randomness of `uuid4` by distinctness. -/
def mkUuid (n : Nat) : String :=
  "uuid-" ++ String.mk (List.replicate n 'f')

/-- Python `str.strip()`: drop leading and trailing whitespace (structural
model over the character list, so that proofs can evaluate it). -/
def pyStrip (s : String) : String :=
  String.mk (((s.data.dropWhile Char.isWhitespace).reverse.dropWhile
    Char.isWhitespace).reverse)

/-- Python `s.endswith("Z")`. -/
def endsWithZ (s : String) : Bool := s.data.getLast? = some 'Z'

/-- Python `s[:-1]`: drop the last character. -/
def dropLastChar (s : String) : String := String.mk s.data.dropLast

/-- Python `s.replace("T", " ")`: the pattern is a single character, so this
is a character map. -/
def replaceTBySpace (s : String) : String :=
  String.mk (s.data.map (fun c => if c = 'T' then ' ' else c))

/-- `(v or "").strip()` applied to the value of an agency field: a falsy
value becomes `""`; stripping a truthy non-string raises `AttributeError`. -/
def stripOrEmpty (v : PyVal) : Exc String :=
  if pyTruthy v then
    match v with
    | .vstr s => .ok (pyStrip s)
    | _ => .error "AttributeError: strip"
  else .ok ""

/-- The naive datetime produced by `datetime.fromisoformat`. -/
structure PyDateTime where
  year : Nat
  month : Nat
  day : Nat
  hour : Nat
  minute : Nat
  second : Nat
deriving DecidableEq, Repr

/-- Value of a decimal digit character. -/
def digit? (c : Char) : Option Nat :=
  if c.isDigit then some (c.toNat - 48) else none

/-- Parse exactly two decimal digits. -/
def parse2 : List Char → Option (Nat × List Char)
  | c1 :: c2 :: rest =>
    match digit? c1, digit? c2 with
    | some a, some b => some (10 * a + b, rest)
    | _, _ => none
  | _ => none

/-- Parse exactly four decimal digits. -/
def parse4 : List Char → Option (Nat × List Char)
  | c1 :: c2 :: c3 :: c4 :: rest =>
    match digit? c1, digit? c2, digit? c3, digit? c4 with
    | some a, some b, some c, some d => some (1000 * a + 100 * b + 10 * c + d, rest)
    | _, _, _, _ => none
  | _ => none

/-- Consume one expected character. -/
def expectChar (c : Char) : List Char → Option (List Char)
  | c' :: rest => if c' = c then some rest else none
  | [] => none

/-- Gregorian leap year. -/
def isLeap (y : Nat) : Bool :=
  y % 4 = 0 && (y % 100 ≠ 0 || y % 400 = 0)

/-- Days in a month of the proleptic Gregorian calendar. -/
def daysInMonth (y m : Nat) : Nat :=
  if m = 2 then (if isLeap y then 29 else 28)
  else if m = 4 ∨ m = 6 ∨ m = 9 ∨ m = 11 then 30
  else 31

/-- Parse the optional ` HH:MM:SS` time part. -/
def parseTimePart : List Char → Option (Nat × Nat × Nat × List Char)
  | [] => some (0, 0, 0, [])
  | cs => do
    let cs ← expectChar ' ' cs
    let (h, cs) ← parse2 cs
    let cs ← expectChar ':' cs
    let (mi, cs) ← parse2 cs
    let cs ← expectChar ':' cs
    let (sec, cs) ← parse2 cs
    pure (h, mi, sec, cs)

/-- `datetime.fromisoformat` on the scraper's input (already `T`→space
replaced), modelled for the grammar `YYYY-MM-DD[ HH:MM:SS]` with calendar
range validation; `none` stands for `ValueError`. -/
def fromIsoFormat (s : String) : Option PyDateTime := do
  let cs := s.data
  let (y, cs) ← parse4 cs
  let cs ← expectChar '-' cs
  let (m, cs) ← parse2 cs
  let cs ← expectChar '-' cs
  let (d, cs) ← parse2 cs
  let (h, mi, sec, cs) ← parseTimePart cs
  if cs = [] ∧ 1 ≤ y ∧ 1 ≤ m ∧ m ≤ 12 ∧ 1 ≤ d ∧ d ≤ daysInMonth y m
      ∧ h ≤ 23 ∧ mi ≤ 59 ∧ sec ≤ 59 then
    some ⟨y, m, d, h, mi, sec⟩
  else none

/-- The decimal digit character for `n % 10`. -/
def digitChar (n : Nat) : Char := Char.ofNat (48 + n % 10)

/-- `%d`-style zero-padded two-digit decimal rendering (exact for the
in-range field values a `datetime` can hold). -/
def pad2 (n : Nat) : String := String.mk [digitChar (n / 10), digitChar n]

/-- `%Y`-style zero-padded four-digit decimal rendering (exact for the
year range 1–9999 a `datetime` can hold). -/
def pad4 (n : Nat) : String :=
  String.mk [digitChar (n / 1000), digitChar (n / 100), digitChar (n / 10), digitChar n]

/-- `dt.strftime("%d/%m/%Y %H:%M:%S")`. -/
def strftimeDmy (dt : PyDateTime) : String :=
  pad2 dt.day ++ "/" ++ pad2 dt.month ++ "/" ++ pad4 dt.year ++ " "
    ++ pad2 dt.hour ++ ":" ++ pad2 dt.minute ++ ":" ++ pad2 dt.second

/-- `_format_fecha_local(iso_str)`: `None` for a falsy input; otherwise strip,
drop a trailing `Z`, replace `T` by space, parse and reformat, returning the
original string unchanged on parse failure. A truthy non-string raises. -/
def format_fecha_local (v : PyVal) : Exc PyVal :=
  if pyTruthy v then
    match v with
    | .vstr s =>
      let cleaned := pyStrip s
      let cleaned := if endsWithZ cleaned then dropLastChar cleaned else cleaned
      match fromIsoFormat (replaceTBySpace cleaned) with
      | some dt => .ok (.vstr (strftimeDmy dt))
      | none => .ok (.vstr s)
    | _ => .error "AttributeError: strip"
  else .ok .vnone

/-- `_normalize_api_item(item)`, threading the uuid counter: `None` for a
falsy (empty) dict, otherwise the twelve-field canonical record. -/
def normalize_api_item (item : PyDict) (ctr : Nat) : Exc (Option Record × Nat) :=
  if item = [] then
    .ok (none, ctr)
  else
    match stripOrEmpty (dget item "codigo") with
    | .error e => .error e
    | .ok codigo =>
    match format_fecha_local (dget item "fecha_hora") with
    | .error e => .error e
    | .ok fechaLocal =>
    let (idVal, ctr') :=
      if codigo ≠ "" then (codigo, ctr) else (mkUuid ctr, ctr + 1)
    let magnitud := dget item "magnitud"
    .ok (some [
      ("id", .vstr idVal),
      ("reporte", .vstr codigo),
      ("referencia", dget item "referencia"),
      ("fecha_hora_local", fechaLocal),
      ("magnitud", if magnitud = .vnone then .vnone else .vstr (pyStr magnitud)),
      ("profundidad_km", dget item "profundidad"),
      ("latitud", dget item "latitud"),
      ("longitud", dget item "longitud"),
      ("tipo_evento", dget item "tipo_evento"),
      ("numero", dget item "numero"),
      ("simulacro", dget item "simulacro"),
      ("created_at", dget item "created_at")
    ], ctr')

/-- The normalization loop of `_fetch_from_api`: normalize each raw row and
keep the truthy (non-`None`, non-empty) results, in payload order. -/
def normLoop : List PyDict → Nat → Exc (List Record × Nat)
  | [], ctr => .ok ([], ctr)
  | item :: rest, ctr =>
    match normalize_api_item item ctr with
    | .error e => .error e
    | .ok (normalized, ctr1) =>
    match normLoop rest ctr1 with
    | .error e => .error e
    | .ok (tail, ctr2) =>
    match normalized with
    | some r => if r ≠ [] then .ok (r :: tail, ctr2) else .ok (tail, ctr2)
    | none => .ok (tail, ctr2)

/-- `_fetch_from_api(limit)`. The HTTP GET / `raise_for_status` / `res.json()`
outcome is the argument `apiResult`: `Except.error` is a caught
`RequestException`/`ValueError`, yielding `[]`; `Except.ok payload` is the
decoded JSON list, truncated to `limit` and normalized. -/
def fetch_from_api (apiResult : Except Unit (List PyDict)) (limit : Nat)
    (ctr : Nat) : Exc (List Record × Nat) :=
  match apiResult with
  | .error _ => .ok ([], ctr)
  | .ok payload => normLoop (payload.take limit) ctr

/-- `get_text(strip=True)` on a table cell, abstracted as stripping the
cell's text. -/
def getText (cell : String) : String := pyStrip cell

/-- The row loop of `_fetch_from_html`: rows with fewer than four cells are
skipped; otherwise the four fixed-position cell texts become the five-field
record, with a generated id when the report code is empty. -/
def htmlLoop : List (List String) → Nat → List Record × Nat
  | [], ctr => ([], ctr)
  | row :: rest, ctr =>
    if row.length < 4 then htmlLoop rest ctr
    else
      let reporte := getText (row.getD 0 "")
      let referencia := getText (row.getD 1 "")
      let fecha := getText (row.getD 2 "")
      let magnitud := getText (row.getD 3 "")
      let (idVal, ctr1) :=
        if reporte ≠ "" then (reporte, ctr) else (mkUuid ctr, ctr + 1)
      let entry : Record := [
        ("id", .vstr idVal),
        ("reporte", .vstr reporte),
        ("referencia", .vstr referencia),
        ("fecha_hora_local", .vstr fecha),
        ("magnitud", .vstr magnitud)]
      let (tail, ctr2) := htmlLoop rest ctr1
      (entry :: tail, ctr2)

/-- `_fetch_from_html(limit)`. The HTTP GET / `raise_for_status` / parse
outcome is the argument `htmlResult`: `Except.error` is an uncaught transport
failure that propagates; `Except.ok rows` is the list of `<tr>` rows, each a
list of `<td>` cell texts, truncated to `limit` before parsing. -/
def fetch_from_html (htmlResult : Except Unit (List (List String)))
    (limit : Nat) (ctr : Nat) : Exc (List Record × Nat) :=
  match htmlResult with
  | .error _ => .error "HTTPError"
  | .ok rows => .ok (htmlLoop (rows.take limit) ctr)

/-- `scrape_last_earthquakes(limit=10)`: structured source first; its result
is returned whenever truthy (non-empty), otherwise the HTML fallback runs. -/
def scrape_last_earthquakes (apiResult : Except Unit (List PyDict))
    (htmlResult : Except Unit (List (List String))) (limit : Nat)
    (ctr : Nat) : Exc (List Record × Nat) :=
  match fetch_from_api apiResult limit ctr with
  | .error e => .error e
  | .ok (earthquakes, ctr1) =>
    if earthquakes ≠ [] then .ok (earthquakes, ctr1)
    else fetch_from_html htmlResult limit ctr1

/-- The DynamoDB table contents: association list from the value of the `id`
key attribute to the stored item. -/
abbrev Store := List (PyVal × Record)

/-- One `put_item`: insert the item, overwriting in place an existing entry
sharing the key. -/
def upsert : Store → PyVal → Record → Store
  | [], k, v => [(k, v)]
  | (k', v') :: rest, k, v =>
    if k' = k then (k, v) :: rest else (k', v') :: upsert rest k v

/-- The batch writer: `put_item` for each record in order, keyed by `id`. -/
def putItems (store : Store) (items : List Record) : Store :=
  items.foldl (fun s it => upsert s (dget it "id") it) store

/-- Python truthiness of `table_name` (`None` and `""` are falsy). -/
def optTruthy : Option String → Bool
  | none => false
  | some s => s ≠ ""

/-- `store_in_dynamodb(earthquakes, table_name=None)` against a table state:
no-op on an empty input; otherwise `table_name or TABLE_NAME` must be truthy
or a `RuntimeError` is raised with the table untouched; otherwise every
record is upserted. Returns the outcome and the post-state of the table. -/
def store_in_dynamodb (earthquakes : List Record) (table_name : Option String)
    (envTableName : Option String) (store : Store) : Exc Unit × Store :=
  if earthquakes = [] then (.ok (), store)
  else
    let tn := if optTruthy table_name then table_name else envTableName
    if optTruthy tn then (.ok (), putItems store earthquakes)
    else (.error "RuntimeError: TABLE_NAME no esta configurado en las variables de entorno.", store)

/-- Lookup in a record: `some v` when the key is present (`v` may be
`vnone`, Python `None`), `none` when the key is genuinely absent. -/
def rget (r : Record) (k : String) : Option PyVal :=
  (r.find? (fun p => p.1 = k)).map Prod.snd

/-- Lookup in the table by key value. -/
def sget (s : Store) (k : PyVal) : Option Record :=
  (s.find? (fun p => p.1 = k)).map Prod.snd

/-- Number of entries of the table holding a given key. -/
def countKey (s : Store) (k : PyVal) : Nat :=
  s.countP (fun p => p.1 = k)

/-- A field value the scraper can process without raising: a string, or any
falsy value (which `or ""` turns into the empty string). -/
def strLike (v : PyVal) : Bool :=
  match v with
  | .vstr _ => true
  | _ => !pyTruthy v

/-- A well-formed raw agency record: a non-empty dict whose `codigo` and
`fecha_hora` fields (when present and truthy) are strings, so that
normalization raises no exception. -/
def wfItem (item : PyDict) : Bool :=
  item ≠ [] && strLike (dget item "codigo") && strLike (dget item "fecha_hora")

/-- The cleaning `_format_fecha_local` applies before parsing: strip, drop a
trailing `Z`, replace `T` by a space. -/
def cleanIso (s : String) : String :=
  let c := pyStrip s
  let c := if endsWithZ c then dropLastChar c else c
  replaceTBySpace c

/-- Checks the `DD/MM/YYYY HH:MM:SS` shape character by character. -/
def isDmyShape (s : String) : Bool :=
  match s.data with
  | [d1, d2, '/', m1, m2, '/', y1, y2, y3, y4, ' ',
     h1, h2, ':', n1, n2, ':', s1, s2] =>
    [d1, d2, m1, m2, y1, y2, y3, y4, h1, h2, n1, n2, s1, s2].all Char.isDigit
  | _ => false

/-- The five keys of a record built by the unstructured (HTML) adapter. -/
def fiveKeys : List String :=
  ["id", "reporte", "referencia", "fecha_hora_local", "magnitud"]

/-- The twelve keys of a record built by the structured-path normalizer. -/
def twelveKeys : List String :=
  ["id", "reporte", "referencia", "fecha_hora_local", "magnitud",
   "profundidad_km", "latitud", "longitud", "tipo_evento", "numero",
   "simulacro", "created_at"]

/-- The ids of the code-less records of a batch: on either path a record
carries `reporte = ""` exactly when its source had no agency code, and then
its id was freshly generated. -/
def genIds (recs : List Record) : List PyVal :=
  (recs.filter (fun r => dget r "reporte" = .vstr "")).map (fun r => dget r "id")

/-- The last record of a batch holding a given `id` value, if any: the
record whose values survive in the store after the batch is written. -/
def lastPut (eqs : List Record) (k : PyVal) : Option Record :=
  eqs.reverse.find? (fun r => dget r "id" = k)

theorem dget_cons_self (k : String) (v : PyVal) (rest : PyDict) :
    dget ((k, v) :: rest) k = v := by
  simp [dget, List.find?_cons_of_pos]

theorem dget_cons_ne (k k' : String) (v' : PyVal) (rest : PyDict)
    (h : k' ≠ k) : dget ((k', v') :: rest) k = dget rest k := by
  simp [dget, List.find?_cons_of_neg, h]

theorem rget_cons_self (k : String) (v : PyVal) (rest : PyDict) :
    rget ((k, v) :: rest) k = some v := by
  simp [rget, List.find?_cons_of_pos]

theorem rget_cons_ne (k k' : String) (v' : PyVal) (rest : PyDict)
    (h : k' ≠ k) : rget ((k', v') :: rest) k = rget rest k := by
  simp [rget, List.find?_cons_of_neg, h]

theorem stripOrEmpty_vstr (s : String) :
    stripOrEmpty (.vstr s) = .ok (pyStrip s) := by
  by_cases h : s = ""
  · subst h; rfl
  · simp [stripOrEmpty, pyTruthy, h]

theorem stripOrEmpty_strLike (v : PyVal) (h : strLike v = true) :
    ∃ s, stripOrEmpty v = .ok s := by
  cases v with
  | vstr s => exact ⟨pyStrip s, stripOrEmpty_vstr s⟩
  | vnone => exact ⟨"", rfl⟩
  | vnum r t =>
    simp [strLike, pyTruthy] at h
    simp [stripOrEmpty, pyTruthy, h]
  | vbool b =>
    simp [strLike, pyTruthy] at h
    simp [stripOrEmpty, pyTruthy, h]

theorem format_fecha_local_vstr_pos (s : String) (hs : s ≠ "") :
    format_fecha_local (.vstr s) =
      (match fromIsoFormat (cleanIso s) with
       | some dt => .ok (.vstr (strftimeDmy dt))
       | none => .ok (.vstr s)) := by
  simp only [format_fecha_local, pyTruthy, cleanIso]
  rw [if_pos]
  exact decide_eq_true hs

theorem format_fecha_local_strLike (v : PyVal) (h : strLike v = true) :
    ∃ w, format_fecha_local v = .ok w := by
  cases v with
  | vstr s =>
    by_cases hs : s = ""
    · subst hs; exact ⟨.vnone, rfl⟩
    · rw [format_fecha_local_vstr_pos s hs]
      cases fromIsoFormat (cleanIso s) with
      | none => exact ⟨.vstr s, rfl⟩
      | some dt => exact ⟨.vstr (strftimeDmy dt), rfl⟩
  | vnone => exact ⟨.vnone, rfl⟩
  | vnum r t =>
    simp [strLike, pyTruthy] at h
    simp [format_fecha_local, pyTruthy, h]
  | vbool b =>
    simp [strLike, pyTruthy] at h
    simp [format_fecha_local, pyTruthy, h]

theorem mkUuid_length (n : Nat) : (mkUuid n).length = 5 + n := by
  have h2 : (String.mk (List.replicate n 'f')).length = n := by
    show (List.replicate n 'f').length = n
    exact List.length_replicate n 'f'
  rw [mkUuid, String.length_append, h2]
  rw [show ("uuid-" : String).length = 5 from rfl]

theorem mkUuid_ne_empty (n : Nat) : mkUuid n ≠ "" := by
  intro h
  have := congrArg String.length h
  rw [mkUuid_length] at this
  simp [String.length] at this

theorem mkUuid_inj (a b : Nat) (h : mkUuid a = mkUuid b) : a = b := by
  have := congrArg String.length h
  rw [mkUuid_length, mkUuid_length] at this
  omega

/-- The explicit result of `_normalize_api_item` on a non-empty item whose
`codigo` strips to `c` and whose `fecha_hora` formats to `w`. -/
def normalizedRec (item : PyDict) (ctr : Nat) (c : String) (w : PyVal) : Record :=
  [("id", .vstr (if c ≠ "" then c else mkUuid ctr)),
   ("reporte", .vstr c),
   ("referencia", dget item "referencia"),
   ("fecha_hora_local", w),
   ("magnitud", if dget item "magnitud" = .vnone then .vnone
                else .vstr (pyStr (dget item "magnitud"))),
   ("profundidad_km", dget item "profundidad"),
   ("latitud", dget item "latitud"),
   ("longitud", dget item "longitud"),
   ("tipo_evento", dget item "tipo_evento"),
   ("numero", dget item "numero"),
   ("simulacro", dget item "simulacro"),
   ("created_at", dget item "created_at")]

theorem normalize_api_item_eq (item : PyDict) (ctr : Nat) (c : String)
    (w : PyVal) (h1 : item ≠ [])
    (hc : stripOrEmpty (dget item "codigo") = .ok c)
    (hf : format_fecha_local (dget item "fecha_hora") = .ok w) :
    normalize_api_item item ctr =
      .ok (some (normalizedRec item ctr c w), if c ≠ "" then ctr else ctr + 1) := by
  unfold normalize_api_item
  rw [if_neg h1, hc, hf]
  by_cases hcne : c = ""
  · simp [hcne, normalizedRec]
  · simp [hcne, normalizedRec]

theorem normalizedRec_keys (item : PyDict) (ctr : Nat) (c : String)
    (w : PyVal) : (normalizedRec item ctr c w).map Prod.fst = twelveKeys := rfl

theorem normalizedRec_ne (item : PyDict) (ctr : Nat) (c : String)
    (w : PyVal) : normalizedRec item ctr c w ≠ [] := by
  simp [normalizedRec]

theorem normalizedRec_id (item : PyDict) (ctr : Nat) (c : String) (w : PyVal) :
    dget (normalizedRec item ctr c w) "id" =
      .vstr (if c ≠ "" then c else mkUuid ctr) :=
  dget_cons_self _ _ _

theorem normalizedRec_reporte (item : PyDict) (ctr : Nat) (c : String)
    (w : PyVal) : dget (normalizedRec item ctr c w) "reporte" = .vstr c := by
  rw [normalizedRec, dget_cons_ne _ _ _ _ (by decide), dget_cons_self]

theorem wfItem_iff (item : PyDict) : wfItem item = true ↔
    (item ≠ [] ∧ strLike (dget item "codigo") = true
      ∧ strLike (dget item "fecha_hora") = true) := by
  simp [wfItem, Bool.and_eq_true, and_assoc]

theorem normalize_api_item_wf (item : PyDict) (ctr : Nat)
    (hwf : wfItem item = true) :
    ∃ c w, normalize_api_item item ctr =
        .ok (some (normalizedRec item ctr c w), if c ≠ "" then ctr else ctr + 1)
      ∧ stripOrEmpty (dget item "codigo") = .ok c
      ∧ format_fecha_local (dget item "fecha_hora") = .ok w := by
  obtain ⟨h1, hc, hf⟩ := (wfItem_iff item).mp hwf
  obtain ⟨c, hc'⟩ := stripOrEmpty_strLike _ hc
  obtain ⟨w, hf'⟩ := format_fecha_local_strLike _ hf
  exact ⟨c, w, normalize_api_item_eq item ctr c w h1 hc' hf', hc', hf'⟩

theorem genIds_cons_pos (r : Record) (recs : List Record)
    (h : dget r "reporte" = .vstr "") :
    genIds (r :: recs) = dget r "id" :: genIds recs := by
  simp [genIds, List.filter_cons, h]

theorem genIds_cons_neg (r : Record) (recs : List Record)
    (h : dget r "reporte" ≠ .vstr "") :
    genIds (r :: recs) = genIds recs := by
  simp [genIds, List.filter_cons, h]

theorem normLoop_wf (items : List PyDict) : ∀ ctr : Nat,
    (∀ it ∈ items, wfItem it = true) →
    ∃ recs ctr2, normLoop items ctr = .ok (recs, ctr2)
      ∧ recs.length = items.length
      ∧ ctr ≤ ctr2
      ∧ (∀ i (hi : i < recs.length) (hj : i < items.length), ∃ c c2,
          normalize_api_item (items.get ⟨i, hj⟩) c =
            .ok (some (recs.get ⟨i, hi⟩), c2))
      ∧ (∀ r ∈ recs, ∃ s, dget r "id" = .vstr s ∧ s ≠ "")
      ∧ (∀ v ∈ genIds recs, ∃ g, ctr ≤ g ∧ g < ctr2 ∧ v = .vstr (mkUuid g))
      ∧ (genIds recs).Nodup := by
  induction items with
  | nil =>
    intro ctr _
    refine ⟨[], ctr, rfl, rfl, le_refl _, ?_, ?_, ?_, List.nodup_nil⟩
    · intro i hi _; exact absurd hi (by simp)
    · intro r hr; exact absurd hr (by simp)
    · intro v hv; exact absurd hv (by simp [genIds])
  | cons item rest ih =>
    intro ctr hall
    have hitem : wfItem item = true := hall item (List.mem_cons_self _ _)
    have hrest : ∀ it ∈ rest, wfItem it = true :=
      fun it h => hall it (List.mem_cons_of_mem _ h)
    obtain ⟨c, w, heq, hc, hf⟩ := normalize_api_item_wf item ctr hitem
    obtain ⟨recs, ctr2, hloop, hlen, hle, horder, hids, hgen, hnodup⟩ :=
      ih (if c ≠ "" then ctr else ctr + 1) hrest
    have hstep : ctr ≤ if c ≠ "" then ctr else ctr + 1 := by
      split <;> omega
    refine ⟨normalizedRec item ctr c w :: recs, ctr2, ?_, ?_, ?_, ?_, ?_, ?_, ?_⟩
    · simp only [normLoop]
      rw [heq]
      dsimp only
      rw [hloop]
      dsimp only
      rw [if_pos (normalizedRec_ne item ctr c w)]
    · simp [hlen]
    · omega
    · intro i hi hj
      match i with
      | 0 => exact ⟨ctr, _, heq⟩
      | Nat.succ n =>
        exact horder n (Nat.lt_of_succ_lt_succ hi) (Nat.lt_of_succ_lt_succ hj)
    · intro r hr
      rcases List.mem_cons.mp hr with hhead | htail
      · subst hhead
        rw [normalizedRec_id]
        by_cases hcc : c = ""
        · exact ⟨mkUuid ctr, by simp [hcc], mkUuid_ne_empty ctr⟩
        · exact ⟨c, by simp [hcc], hcc⟩
      · exact hids r htail
    · intro v hv
      by_cases hcc : c = ""
      · rw [genIds_cons_pos _ _ (by rw [normalizedRec_reporte, hcc])] at hv
        rcases List.mem_cons.mp hv with hhead | htail
        · subst hhead
          rw [normalizedRec_id]
          refine ⟨ctr, le_refl _, ?_, by simp [hcc]⟩
          simp [hcc] at hle
          omega
        · obtain ⟨g, hg1, hg2, hg3⟩ := hgen v htail
          exact ⟨g, le_trans hstep hg1, hg2, hg3⟩
      · rw [genIds_cons_neg _ _ (by rw [normalizedRec_reporte]; simp [hcc])] at hv
        obtain ⟨g, hg1, hg2, hg3⟩ := hgen v hv
        exact ⟨g, le_trans hstep hg1, hg2, hg3⟩
    · by_cases hcc : c = ""
      · rw [genIds_cons_pos _ _ (by rw [normalizedRec_reporte, hcc])]
        refine List.Nodup.cons ?_ hnodup
        intro hmem
        obtain ⟨g, hg1, _, hg3⟩ := hgen _ hmem
        rw [normalizedRec_id] at hg3
        simp [hcc] at hg3 hg1
        have := mkUuid_inj _ _ hg3
        omega
      · rw [genIds_cons_neg _ _ (by rw [normalizedRec_reporte]; simp [hcc])]
        exact hnodup

/-- C1: for every well-formed structured payload (a non-empty list of
well-formed raw records) and every positive limit, the orchestrator returns
exactly `min limit payload.length` canonical records, the i-th record being
the normalization of the i-th payload row (order preserved), and the result
does not depend on the unstructured (HTML) source at all. -/
theorem C1_structured_path_returns_min_limit (payload : List PyDict)
    (htmlResult htmlResult2 : Except Unit (List (List String)))
    (limit ctr : Nat) (hp : payload ≠ []) (hl : 0 < limit)
    (hwf : ∀ item ∈ payload, wfItem item = true) :
    ∃ recs ctr2,
      scrape_last_earthquakes (.ok payload) htmlResult limit ctr = .ok (recs, ctr2)
      ∧ recs.length = min limit payload.length
      ∧ (∀ i (hi : i < recs.length) (hj : i < payload.length), ∃ c c2,
          normalize_api_item (payload.get ⟨i, hj⟩) c =
            .ok (some (recs.get ⟨i, hi⟩), c2))
      ∧ scrape_last_earthquakes (.ok payload) htmlResult limit ctr =
          scrape_last_earthquakes (.ok payload) htmlResult2 limit ctr := by
  have hwf2 : ∀ it ∈ payload.take limit, wfItem it = true :=
    fun it h => hwf it (List.mem_of_mem_take h)
  obtain ⟨recs, ctr2, hloop, hlen, _, horder, _, _, _⟩ :=
    normLoop_wf (payload.take limit) ctr hwf2
  have hlen2 : recs.length = min limit payload.length := by
    rw [hlen, List.length_take]
  have hne : recs ≠ [] := by
    rw [← List.length_pos, hlen2]
    exact Nat.lt_min.mpr ⟨hl, List.length_pos.mpr hp⟩
  have hscrape : ∀ h2, scrape_last_earthquakes (.ok payload) h2 limit ctr =
      .ok (recs, ctr2) := by
    intro h2
    simp only [scrape_last_earthquakes, fetch_from_api]
    rw [hloop]
    dsimp only
    rw [if_pos hne]
  refine ⟨recs, ctr2, hscrape htmlResult, hlen2, ?_, ?_⟩
  · intro i hi hj
    have hi2 : i < min limit payload.length := by rw [← hlen2]; exact hi
    have hj2 : i < (payload.take limit).length := by
      rw [List.length_take]; exact hi2
    obtain ⟨c, c2, hOrd⟩ := horder i hi hj2
    refine ⟨c, c2, ?_⟩
    rw [List.get_take payload hj (Nat.lt_min.mp hi2).1]
    exact hOrd
  · rw [hscrape htmlResult, hscrape htmlResult2]

/-- C1 witness: a concrete two-row payload with limit 1 yields exactly one
record, in payload order, independently of the HTML source. -/
theorem C1_witness :
    ∃ recs ctr2,
      scrape_last_earthquakes
          (.ok [[("codigo", PyVal.vstr "A1")], [("codigo", PyVal.vstr "B2")]])
          (.ok []) 1 0 = .ok (recs, ctr2)
      ∧ recs.length =
          min 1 ([[("codigo", PyVal.vstr "A1")], [("codigo", PyVal.vstr "B2")]] :
            List PyDict).length
      ∧ (∀ i (hi : i < recs.length)
          (hj : i < ([[("codigo", PyVal.vstr "A1")], [("codigo", PyVal.vstr "B2")]] :
            List PyDict).length), ∃ c c2,
          normalize_api_item
              (([[("codigo", PyVal.vstr "A1")], [("codigo", PyVal.vstr "B2")]] :
                List PyDict).get ⟨i, hj⟩) c =
            .ok (some (recs.get ⟨i, hi⟩), c2))
      ∧ scrape_last_earthquakes
          (.ok [[("codigo", PyVal.vstr "A1")], [("codigo", PyVal.vstr "B2")]])
          (.ok []) 1 0 =
        scrape_last_earthquakes
          (.ok [[("codigo", PyVal.vstr "A1")], [("codigo", PyVal.vstr "B2")]])
          (.error ()) 1 0 :=
  C1_structured_path_returns_min_limit
    [[("codigo", PyVal.vstr "A1")], [("codigo", PyVal.vstr "B2")]]
    (.ok []) (.error ()) 1 0 (by decide) (by decide) (by decide)

/-- C2: when the structured source yields an empty list — empty decoded
payload or a caught transport/decode failure — the orchestrator returns the
result of the unstructured adapter, and when that is empty too the run
returns a legitimate empty sequence rather than an error. -/
theorem C2_fallback_on_empty_structured_result
    (htmlResult : Except Unit (List (List String))) (limit ctr : Nat) :
    scrape_last_earthquakes (.error ()) htmlResult limit ctr =
        fetch_from_html htmlResult limit ctr
      ∧ scrape_last_earthquakes (.ok []) htmlResult limit ctr =
        fetch_from_html htmlResult limit ctr
      ∧ scrape_last_earthquakes (.error ()) (.ok []) limit ctr = .ok ([], ctr)
      ∧ scrape_last_earthquakes (.ok []) (.ok []) limit ctr = .ok ([], ctr) := by
  have hapi : fetch_from_api (.ok []) limit ctr = .ok ([], ctr) := by
    simp [fetch_from_api, List.take_nil, normLoop]
  have h1 : ∀ hr : Except Unit (List (List String)),
      scrape_last_earthquakes (.error ()) hr limit ctr =
        fetch_from_html hr limit ctr := fun hr => rfl
  have h2 : ∀ hr : Except Unit (List (List String)),
      scrape_last_earthquakes (.ok []) hr limit ctr =
        fetch_from_html hr limit ctr := by
    intro hr
    simp only [scrape_last_earthquakes]
    rw [hapi]
    dsimp only
    simp
  have h3 : fetch_from_html (.ok []) limit ctr = .ok ([], ctr) := by
    simp [fetch_from_html, List.take_nil, htmlLoop]
  exact ⟨h1 htmlResult, h2 htmlResult,
    by rw [h1 (.ok [])]; exact h3, by rw [h2 (.ok [])]; exact h3⟩

/-- C3: persisting a non-empty batch with no table name argument and the
environment variable unset raises the configuration `RuntimeError` and
leaves the store untouched (no write is attempted). -/
theorem C3_missing_configuration_raises (earthquakes : List Record)
    (store : Store) (h : earthquakes ≠ []) :
    store_in_dynamodb earthquakes none none store =
      (.error "RuntimeError: TABLE_NAME no esta configurado en las variables de entorno.",
       store) := by
  simp [store_in_dynamodb, h, optTruthy]

/-- C3 witness: one concrete record, unconfigured destination. -/
theorem C3_witness :
    store_in_dynamodb [[("id", PyVal.vstr "x")]] none none [] =
      (.error "RuntimeError: TABLE_NAME no esta configurado en las variables de entorno.",
       []) :=
  C3_missing_configuration_raises [[("id", PyVal.vstr "x")]] [] (by decide)

/-- C9: the empty-input check precedes the configuration check, so
persisting an empty sequence returns normally with the store unchanged even
when no storage destination is configured. -/
theorem C9_empty_batch_checked_before_config (table_name envTableName :
    Option String) (store : Store) :
    store_in_dynamodb [] table_name envTableName store = (.ok (), store) := rfl

theorem sget_cons_self (k : PyVal) (v : Record) (rest : Store) :
    sget ((k, v) :: rest) k = some v := by
  simp [sget, List.find?_cons_of_pos]

theorem sget_cons_ne (k k1 : PyVal) (v1 : Record) (rest : Store)
    (h : k1 ≠ k) : sget ((k1, v1) :: rest) k = sget rest k := by
  simp [sget, List.find?_cons_of_neg, h]

theorem sget_upsert (s : Store) (k0 : PyVal) (v : Record) (k : PyVal) :
    sget (upsert s k0 v) k = if k0 = k then some v else sget s k := by
  induction s with
  | nil =>
    by_cases h : k0 = k
    · rw [show upsert [] k0 v = [(k0, v)] from rfl, h, sget_cons_self, if_pos rfl]
    · rw [show upsert [] k0 v = [(k0, v)] from rfl,
        sget_cons_ne _ _ _ _ h, if_neg h]
  | cons p rest ih =>
    obtain ⟨k1, v1⟩ := p
    by_cases h1 : k1 = k0
    · rw [show upsert ((k1, v1) :: rest) k0 v = (k0, v) :: rest from by
        simp [upsert, h1]]
      by_cases h : k0 = k
      · rw [h, sget_cons_self, if_pos rfl]
      · rw [sget_cons_ne _ _ _ _ h, if_neg h, h1,
          sget_cons_ne _ _ _ _ (h1 ▸ h)]
    · rw [show upsert ((k1, v1) :: rest) k0 v = (k1, v1) :: upsert rest k0 v from by
        simp [upsert, h1]]
      by_cases h : k1 = k
      · rw [h] at h1 ⊢
        rw [sget_cons_self, if_neg (fun hc => h1 hc.symm), sget_cons_self]
      · rw [sget_cons_ne _ _ _ _ h, sget_cons_ne _ _ _ _ h, ih]

theorem countKey_cons (k1 : PyVal) (v1 : Record) (s : Store) (k : PyVal) :
    countKey ((k1, v1) :: s) k = countKey s k + if k1 = k then 1 else 0 := by
  by_cases h : k1 = k
  · simp [countKey, List.countP_cons, h]
  · simp [countKey, List.countP_cons, h]

theorem countKey_upsert_self (s : Store) (k : PyVal) (v : Record) :
    countKey s k ≤ 1 → countKey (upsert s k v) k = 1 := by
  induction s with
  | nil =>
    intro _
    rw [show upsert [] k v = [(k, v)] from rfl, countKey_cons]
    simp [countKey]
  | cons p rest ih =>
    intro h
    obtain ⟨k1, v1⟩ := p
    rw [countKey_cons] at h
    by_cases h1 : k1 = k
    · rw [show upsert ((k1, v1) :: rest) k v = (k, v) :: rest from by
        simp [upsert, h1]]
      rw [countKey_cons, if_pos rfl]
      rw [if_pos h1] at h
      omega
    · rw [show upsert ((k1, v1) :: rest) k v = (k1, v1) :: upsert rest k v from by
        simp [upsert, h1]]
      rw [countKey_cons, if_neg h1]
      rw [if_neg h1, add_zero] at h
      rw [ih h]

theorem lastPut_cons (r : Record) (t : List Record) (k : PyVal) :
    lastPut (r :: t) k =
      (lastPut t k).or (List.find? (fun x => dget x "id" = k) [r]) := by
  simp [lastPut, List.reverse_cons, List.find?_append]

theorem sget_putItems (eqs : List Record) : ∀ (s : Store) (k : PyVal),
    sget (putItems s eqs) k =
      match lastPut eqs k with
      | some r => some r
      | none => sget s k := by
  induction eqs with
  | nil => intro s k; rfl
  | cons r t ih =>
    intro s k
    have hstep : putItems s (r :: t) = putItems (upsert s (dget r "id") r) t := rfl
    rw [hstep, ih, lastPut_cons]
    cases hl : lastPut t k with
    | some r2 => simp
    | none =>
      simp only [Option.none_or]
      by_cases hk : dget r "id" = k
      · simp [List.find?, hk, sget_upsert]
      · simp [List.find?, hk, sget_upsert]

/-- A configured, non-empty persistence call writes the whole batch. -/
theorem store_in_dynamodb_configured (eqs : List Record) (tname : String)
    (env : Option String) (store : Store) (he : eqs ≠ []) (ht : tname ≠ "") :
    store_in_dynamodb eqs (some tname) env store = (.ok (), putItems store eqs) := by
  simp [store_in_dynamodb, he, optTruthy, ht]

/-- C5: persisting two records with the same `id` — in one batch or across
two configured persist calls — leaves exactly one entry in the store under
that key, holding the second write's values; and re-persisting any same
sequence leaves the store's contents (lookup at every key) unchanged. -/
theorem C5_persist_idempotent_upsert (r1 r2 : Record) (k : PyVal)
    (store : Store) (tname : String) (env : Option String)
    (hk1 : dget r1 "id" = k) (hk2 : dget r2 "id" = k)
    (ht : tname ≠ "") (hs : countKey store k ≤ 1) :
    ((store_in_dynamodb [r1, r2] (some tname) env store).1 = .ok ()
      ∧ countKey (store_in_dynamodb [r1, r2] (some tname) env store).2 k = 1
      ∧ sget (store_in_dynamodb [r1, r2] (some tname) env store).2 k = some r2)
    ∧ (countKey (store_in_dynamodb [r2] (some tname) env
          (store_in_dynamodb [r1] (some tname) env store).2).2 k = 1
      ∧ sget (store_in_dynamodb [r2] (some tname) env
          (store_in_dynamodb [r1] (some tname) env store).2).2 k = some r2)
    ∧ (∀ (eqs : List Record) (s0 : Store) (k2 : PyVal),
        sget (store_in_dynamodb eqs (some tname) env
          (store_in_dynamodb eqs (some tname) env s0).2).2 k2 =
        sget (store_in_dynamodb eqs (some tname) env s0).2 k2) := by
  have hput2 : putItems store [r1, r2] = upsert (upsert store k r1) k r2 := by
    simp [putItems, hk1, hk2]
  have hrun12 := store_in_dynamodb_configured [r1, r2] tname env store
    (by simp) ht
  have hrun1 := store_in_dynamodb_configured [r1] tname env store (by simp) ht
  have hcnt1 : countKey (upsert store k r1) k = 1 :=
    countKey_upsert_self store k r1 hs
  refine ⟨⟨?_, ?_, ?_⟩, ⟨?_, ?_⟩, ?_⟩
  · rw [hrun12]
  · rw [hrun12]
    show countKey (putItems store [r1, r2]) k = 1
    rw [hput2]
    exact countKey_upsert_self _ k r2 (by omega)
  · rw [hrun12]
    show sget (putItems store [r1, r2]) k = some r2
    rw [hput2, sget_upsert, if_pos rfl]
  · rw [hrun1]
    have hrun2 := store_in_dynamodb_configured [r2] tname env
      (putItems store [r1]) (by simp) ht
    rw [hrun2]
    show countKey (putItems (putItems store [r1]) [r2]) k = 1
    have h1 : putItems store [r1] = upsert store k r1 := by simp [putItems, hk1]
    have h2 : putItems (putItems store [r1]) [r2] =
        upsert (putItems store [r1]) k r2 := by simp [putItems, hk2]
    rw [h2, h1]
    exact countKey_upsert_self _ k r2 (by omega)
  · rw [hrun1]
    have hrun2 := store_in_dynamodb_configured [r2] tname env
      (putItems store [r1]) (by simp) ht
    rw [hrun2]
    show sget (putItems (putItems store [r1]) [r2]) k = some r2
    have h2 : putItems (putItems store [r1]) [r2] =
        upsert (putItems store [r1]) k r2 := by simp [putItems, hk2]
    rw [h2, sget_upsert, if_pos rfl]
  · intro eqs s0 k2
    by_cases he : eqs = []
    · subst he; rfl
    · rw [store_in_dynamodb_configured eqs tname env s0 he ht]
      rw [store_in_dynamodb_configured eqs tname env (putItems s0 eqs) he ht]
      rw [sget_putItems, sget_putItems]
      cases lastPut eqs k2 with
      | some r => rfl
      | none => rfl

/-- C5 witness: two concrete writes under the key `"E"` into an empty store
through a configured table leave one entry holding the second record. -/
theorem C5_witness :
    ((store_in_dynamodb [[("id", PyVal.vstr "E"), ("magnitud", PyVal.vstr "1")],
        [("id", PyVal.vstr "E"), ("magnitud", PyVal.vstr "2")]]
        (some "t") none []).1 = .ok ()
      ∧ countKey (store_in_dynamodb
          [[("id", PyVal.vstr "E"), ("magnitud", PyVal.vstr "1")],
           [("id", PyVal.vstr "E"), ("magnitud", PyVal.vstr "2")]]
          (some "t") none []).2 (PyVal.vstr "E") = 1
      ∧ sget (store_in_dynamodb
          [[("id", PyVal.vstr "E"), ("magnitud", PyVal.vstr "1")],
           [("id", PyVal.vstr "E"), ("magnitud", PyVal.vstr "2")]]
          (some "t") none []).2 (PyVal.vstr "E") =
        some [("id", PyVal.vstr "E"), ("magnitud", PyVal.vstr "2")])
    ∧ (countKey (store_in_dynamodb
          [[("id", PyVal.vstr "E"), ("magnitud", PyVal.vstr "2")]] (some "t") none
          (store_in_dynamodb
            [[("id", PyVal.vstr "E"), ("magnitud", PyVal.vstr "1")]]
            (some "t") none []).2).2 (PyVal.vstr "E") = 1
      ∧ sget (store_in_dynamodb
          [[("id", PyVal.vstr "E"), ("magnitud", PyVal.vstr "2")]] (some "t") none
          (store_in_dynamodb
            [[("id", PyVal.vstr "E"), ("magnitud", PyVal.vstr "1")]]
            (some "t") none []).2).2 (PyVal.vstr "E") =
        some [("id", PyVal.vstr "E"), ("magnitud", PyVal.vstr "2")])
    ∧ (∀ (eqs : List Record) (s0 : Store) (k2 : PyVal),
        sget (store_in_dynamodb eqs (some "t") none
          (store_in_dynamodb eqs (some "t") none s0).2).2 k2 =
        sget (store_in_dynamodb eqs (some "t") none s0).2 k2) :=
  C5_persist_idempotent_upsert
    [("id", PyVal.vstr "E"), ("magnitud", PyVal.vstr "1")]
    [("id", PyVal.vstr "E"), ("magnitud", PyVal.vstr "2")]
    (PyVal.vstr "E") [] "t" none (by decide) (by decide) (by decide) (by decide)

theorem digitChar_isDigit (n : Nat) : (digitChar n).isDigit = true := by
  have h : n % 10 < 10 := Nat.mod_lt _ (by norm_num)
  have hall : ∀ m, m < 10 → (Char.ofNat (48 + m)).isDigit = true := by decide
  exact hall (n % 10) h

theorem strftimeDmy_data (dt : PyDateTime) : (strftimeDmy dt).data =
    [digitChar (dt.day / 10), digitChar dt.day, '/',
     digitChar (dt.month / 10), digitChar dt.month, '/',
     digitChar (dt.year / 1000), digitChar (dt.year / 100),
     digitChar (dt.year / 10), digitChar dt.year, ' ',
     digitChar (dt.hour / 10), digitChar dt.hour, ':',
     digitChar (dt.minute / 10), digitChar dt.minute, ':',
     digitChar (dt.second / 10), digitChar dt.second] := rfl

theorem strftimeDmy_shape (dt : PyDateTime) :
    isDmyShape (strftimeDmy dt) = true := by
  unfold isDmyShape
  rw [strftimeDmy_data]
  simp [digitChar_isDigit]

/-- C6: every non-empty timestamp string whose cleaned form parses is mapped
to the `DD/MM/YYYY HH:MM:SS` rendering of the parsed datetime (which always
has that shape), the spec's example included; a non-empty string whose
cleaned form fails to parse is returned unchanged rather than failing. -/
theorem C6_format_fecha_local_shape_or_passthrough (s : String) (hs : s ≠ "") :
    (∀ dt, fromIsoFormat (cleanIso s) = some dt →
        format_fecha_local (.vstr s) = .ok (.vstr (strftimeDmy dt))
        ∧ isDmyShape (strftimeDmy dt) = true)
    ∧ (fromIsoFormat (cleanIso s) = none →
        format_fecha_local (.vstr s) = .ok (.vstr s))
    ∧ format_fecha_local (.vstr "2024-05-01T10:00:00Z") =
        .ok (.vstr "01/05/2024 10:00:00") := by
  refine ⟨?_, ?_, rfl⟩
  · intro dt hdt
    rw [format_fecha_local_vstr_pos s hs, hdt]
    exact ⟨rfl, strftimeDmy_shape dt⟩
  · intro hnone
    rw [format_fecha_local_vstr_pos s hs, hnone]

/-- C6 witness: the spec's example timestamp parses and is reformatted to
the canonical shape. -/
theorem C6_witness :
    format_fecha_local (.vstr "2024-05-01T10:00:00Z") =
      .ok (.vstr (strftimeDmy ⟨2024, 5, 1, 10, 0, 0⟩))
    ∧ isDmyShape (strftimeDmy ⟨2024, 5, 1, 10, 0, 0⟩) = true :=
  (C6_format_fecha_local_shape_or_passthrough "2024-05-01T10:00:00Z"
    (by decide)).1 ⟨2024, 5, 1, 10, 0, 0⟩ (by decide)

theorem rget_eq_none_of_not_mem (r : Record) (key : String)
    (h : ¬ key ∈ r.map Prod.fst) : rget r key = none := by
  rw [rget, List.find?_eq_none.mpr]
  · rfl
  · intro x hx
    simp only [decide_eq_true_eq]
    intro hkey
    exact h (hkey ▸ List.mem_map_of_mem Prod.fst hx)

theorem htmlLoop_keys (rows : List (List String)) : ∀ ctr r,
    r ∈ (htmlLoop rows ctr).1 → r.map Prod.fst = fiveKeys := by
  induction rows with
  | nil => intro ctr r hr; simp [htmlLoop] at hr
  | cons row rest ih =>
    intro ctr r hr
    by_cases hlen : row.length < 4
    · rw [show htmlLoop (row :: rest) ctr = htmlLoop rest ctr from by
        simp [htmlLoop, hlen]] at hr
      exact ih ctr r hr
    · simp only [htmlLoop, if_neg hlen] at hr
      rcases List.mem_cons.mp hr with hhead | htail
      · subst hhead; rfl
      · exact ih _ r htail

/-- C7: every record built by the unstructured (HTML) path carries exactly
the five keys id, reporte, referencia, fecha_hora_local, magnitud — any
other canonical key is genuinely absent (lookup finds no entry, rather than
a null/zero/empty value) — and the spec's example row yields its cell texts
verbatim with the id equal to the report code. -/
theorem C7_html_record_shape :
    (∀ rows ctr r, r ∈ (htmlLoop rows ctr).1 →
      r.map Prod.fst = fiveKeys ∧ ∀ key, ¬ key ∈ fiveKeys → rget r key = none)
    ∧ fetch_from_html
        (.ok [["RPT-001", "12km SE of Lima", "2024-05-01 10:00:00", "M5.2"]])
        10 0 =
      .ok ([[("id", .vstr "RPT-001"), ("reporte", .vstr "RPT-001"),
             ("referencia", .vstr "12km SE of Lima"),
             ("fecha_hora_local", .vstr "2024-05-01 10:00:00"),
             ("magnitud", .vstr "M5.2")]], 0) := by
  refine ⟨?_, rfl⟩
  intro rows ctr r hr
  have hkeys := htmlLoop_keys rows ctr r hr
  exact ⟨hkeys, fun key hkey =>
    rget_eq_none_of_not_mem r key (fun hmem => hkey (hkeys ▸ hmem))⟩

/-- C7 witness: the example record has the five keys and lacks the
structured-only keys such as profundidad_km. -/
theorem C7_witness :
    ([("id", PyVal.vstr "RPT-001"), ("reporte", PyVal.vstr "RPT-001"),
      ("referencia", PyVal.vstr "12km SE of Lima"),
      ("fecha_hora_local", PyVal.vstr "2024-05-01 10:00:00"),
      ("magnitud", PyVal.vstr "M5.2")] : Record).map Prod.fst = fiveKeys
    ∧ ∀ key, ¬ key ∈ fiveKeys →
      rget [("id", PyVal.vstr "RPT-001"), ("reporte", PyVal.vstr "RPT-001"),
        ("referencia", PyVal.vstr "12km SE of Lima"),
        ("fecha_hora_local", PyVal.vstr "2024-05-01 10:00:00"),
        ("magnitud", PyVal.vstr "M5.2")] key = none :=
  C7_html_record_shape.1
    [["RPT-001", "12km SE of Lima", "2024-05-01 10:00:00", "M5.2"]] 0
    [("id", PyVal.vstr "RPT-001"), ("reporte", PyVal.vstr "RPT-001"),
     ("referencia", PyVal.vstr "12km SE of Lima"),
     ("fecha_hora_local", PyVal.vstr "2024-05-01 10:00:00"),
     ("magnitud", PyVal.vstr "M5.2")] (by decide)

theorem htmlLoop_cons_lt4 (row : List String) (rest : List (List String))
    (ctr : Nat) (h : row.length < 4) :
    htmlLoop (row :: rest) ctr = htmlLoop rest ctr := by
  simp [htmlLoop, h]

theorem htmlLoop_cons_code (row : List String) (rest : List (List String))
    (ctr : Nat) (h : ¬ row.length < 4)
    (hrep : getText (row.getD 0 "") ≠ "") :
    htmlLoop (row :: rest) ctr =
      ([("id", .vstr (getText (row.getD 0 ""))),
        ("reporte", .vstr (getText (row.getD 0 ""))),
        ("referencia", .vstr (getText (row.getD 1 ""))),
        ("fecha_hora_local", .vstr (getText (row.getD 2 ""))),
        ("magnitud", .vstr (getText (row.getD 3 "")))] ::
          (htmlLoop rest ctr).1,
       (htmlLoop rest ctr).2) := by
  have hrep2 : getText ((row[0]?).getD "") ≠ "" := by
    simpa [List.getD] using hrep
  simp [htmlLoop, h, hrep, hrep2]

theorem htmlLoop_cons_nocode (row : List String) (rest : List (List String))
    (ctr : Nat) (h : ¬ row.length < 4)
    (hrep : getText (row.getD 0 "") = "") :
    htmlLoop (row :: rest) ctr =
      ([("id", .vstr (mkUuid ctr)),
        ("reporte", .vstr ""),
        ("referencia", .vstr (getText (row.getD 1 ""))),
        ("fecha_hora_local", .vstr (getText (row.getD 2 ""))),
        ("magnitud", .vstr (getText (row.getD 3 "")))] ::
          (htmlLoop rest (ctr + 1)).1,
       (htmlLoop rest (ctr + 1)).2) := by
  have hrep2 : getText ((row[0]?).getD "") = "" := by
    simpa [List.getD] using hrep
  simp [htmlLoop, h, hrep, hrep2]

theorem htmlLoop_ids (rows : List (List String)) : ∀ ctr : Nat,
    ctr ≤ (htmlLoop rows ctr).2
    ∧ (∀ r ∈ (htmlLoop rows ctr).1, ∃ s, dget r "id" = .vstr s ∧ s ≠ "")
    ∧ (∀ v ∈ genIds (htmlLoop rows ctr).1,
        ∃ g, ctr ≤ g ∧ g < (htmlLoop rows ctr).2 ∧ v = .vstr (mkUuid g))
    ∧ (genIds (htmlLoop rows ctr).1).Nodup := by
  induction rows with
  | nil =>
    intro ctr
    exact ⟨le_refl _, by simp [htmlLoop], by simp [htmlLoop, genIds],
      by simp [htmlLoop, genIds]⟩
  | cons row rest ih =>
    intro ctr
    by_cases hlen : row.length < 4
    · rw [htmlLoop_cons_lt4 row rest ctr hlen]
      exact ih ctr
    · by_cases hrep : getText (row.getD 0 "") = ""
      · obtain ⟨hle, hids, hgen, hnodup⟩ := ih (ctr + 1)
        rw [htmlLoop_cons_nocode row rest ctr hlen hrep]
        dsimp only
        have hhead : dget [("id", PyVal.vstr (mkUuid ctr)),
            ("reporte", PyVal.vstr ""),
            ("referencia", PyVal.vstr (getText (row.getD 1 ""))),
            ("fecha_hora_local", PyVal.vstr (getText (row.getD 2 ""))),
            ("magnitud", PyVal.vstr (getText (row.getD 3 "")))] "id" =
            .vstr (mkUuid ctr) := dget_cons_self _ _ _
        have hrep2 : dget [("id", PyVal.vstr (mkUuid ctr)),
            ("reporte", PyVal.vstr ""),
            ("referencia", PyVal.vstr (getText (row.getD 1 ""))),
            ("fecha_hora_local", PyVal.vstr (getText (row.getD 2 ""))),
            ("magnitud", PyVal.vstr (getText (row.getD 3 "")))] "reporte" =
            .vstr "" := by
          rw [dget_cons_ne _ _ _ _ (by decide), dget_cons_self]
        refine ⟨by omega, ?_, ?_, ?_⟩
        · intro r hr
          rcases List.mem_cons.mp hr with hhd | htl
          · subst hhd
            exact ⟨mkUuid ctr, hhead, mkUuid_ne_empty ctr⟩
          · exact hids r htl
        · intro v hv
          rw [genIds_cons_pos _ _ hrep2] at hv
          rcases List.mem_cons.mp hv with hhd | htl
          · subst hhd
            exact ⟨ctr, le_refl _, by omega, hhead⟩
          · obtain ⟨g, hg1, hg2, hg3⟩ := hgen v htl
            exact ⟨g, by omega, hg2, hg3⟩
        · rw [genIds_cons_pos _ _ hrep2]
          refine List.Nodup.cons ?_ hnodup
          intro hmem
          obtain ⟨g, hg1, _, hg3⟩ := hgen _ hmem
          rw [hhead] at hg3
          injection hg3 with hg4
          have := mkUuid_inj _ _ hg4
          omega
      · obtain ⟨hle, hids, hgen, hnodup⟩ := ih ctr
        rw [htmlLoop_cons_code row rest ctr hlen hrep]
        dsimp only
        have hrep2 : dget [("id", PyVal.vstr (getText (row.getD 0 ""))),
            ("reporte", PyVal.vstr (getText (row.getD 0 ""))),
            ("referencia", PyVal.vstr (getText (row.getD 1 ""))),
            ("fecha_hora_local", PyVal.vstr (getText (row.getD 2 ""))),
            ("magnitud", PyVal.vstr (getText (row.getD 3 "")))] "reporte" =
            .vstr (getText (row.getD 0 "")) := by
          rw [dget_cons_ne _ _ _ _ (by decide), dget_cons_self]
        refine ⟨hle, ?_, ?_, ?_⟩
        · intro r hr
          rcases List.mem_cons.mp hr with hhd | htl
          · subst hhd
            exact ⟨getText (row.getD 0 ""), dget_cons_self _ _ _, hrep⟩
          · exact hids r htl
        · intro v hv
          rw [genIds_cons_neg _ _ (by
            rw [hrep2]
            intro hc
            injection hc with hc2
            exact hrep hc2)] at hv
          exact hgen v hv
        · rw [genIds_cons_neg _ _ (by
            rw [hrep2]
            intro hc
            injection hc with hc2
            exact hrep hc2)]
          exact hnodup

/-- C4: a raw record whose agency code is missing or strips to empty
normalizes without failing to a record whose id is the freshly drawn,
non-empty generated value; in any well-formed structured batch the generated
ids are pairwise distinct and every record has a non-empty id; and the same
holds on the unstructured path: a parsed row (at least four cells) whose
report-code cell is empty gets the freshly drawn non-empty generated id,
every HTML batch has pairwise distinct generated ids, and every record it
produces has a non-empty id. -/
theorem C4_generated_ids_fresh_and_distinct (item : PyDict) (ctr : Nat)
    (items : List PyDict) (recs : List Record) (ctr0 ctr2 : Nat)
    (hne : item ≠ []) (hcode : stripOrEmpty (dget item "codigo") = .ok "")
    (hfecha : strLike (dget item "fecha_hora") = true)
    (hwf : ∀ it ∈ items, wfItem it = true)
    (hloop : normLoop items ctr0 = .ok (recs, ctr2)) :
    (∃ r, normalize_api_item item ctr = .ok (some r, ctr + 1)
      ∧ dget r "id" = .vstr (mkUuid ctr) ∧ mkUuid ctr ≠ "")
    ∧ (genIds recs).Nodup
    ∧ (∀ r ∈ recs, ∃ s, dget r "id" = .vstr s ∧ s ≠ "")
    ∧ (∀ (row : List String) (rest : List (List String)) (ctrh : Nat),
        ¬ row.length < 4 → getText (row.getD 0 "") = "" →
        ∃ r tail, (htmlLoop (row :: rest) ctrh).1 = r :: tail
          ∧ dget r "id" = .vstr (mkUuid ctrh) ∧ mkUuid ctrh ≠ "")
    ∧ (∀ (rows : List (List String)) (ctrh : Nat),
        (genIds (htmlLoop rows ctrh).1).Nodup)
    ∧ (∀ (rows : List (List String)) (ctrh : Nat),
        ∀ r ∈ (htmlLoop rows ctrh).1, ∃ s, dget r "id" = .vstr s ∧ s ≠ "") := by
  obtain ⟨w, hw⟩ := format_fecha_local_strLike _ hfecha
  have heq := normalize_api_item_eq item ctr "" w hne hcode hw
  simp only [ne_eq, not_true_eq_false, if_false] at heq
  refine ⟨⟨normalizedRec item ctr "" w, heq, ?_, mkUuid_ne_empty ctr⟩, ?_, ?_,
    ?_, ?_, ?_⟩
  · rw [normalizedRec_id]
    simp
  · obtain ⟨recs2, ctr22, hloop2, _, _, _, _, _, hnodup⟩ :=
      normLoop_wf items ctr0 hwf
    rw [hloop] at hloop2
    injection hloop2 with h
    have h2 : recs = recs2 := congrArg Prod.fst h
    rw [h2]
    exact hnodup
  · obtain ⟨recs2, ctr22, hloop2, _, _, _, hids, _, _⟩ :=
      normLoop_wf items ctr0 hwf
    rw [hloop] at hloop2
    injection hloop2 with h
    have h2 : recs = recs2 := congrArg Prod.fst h
    rw [h2]
    exact hids
  · intro row rest ctrh hlen hrep
    rw [htmlLoop_cons_nocode row rest ctrh hlen hrep]
    exact ⟨_, _, rfl, dget_cons_self _ _ _, mkUuid_ne_empty ctrh⟩
  · intro rows ctrh
    exact (htmlLoop_ids rows ctrh).2.2.2
  · intro rows ctrh
    exact (htmlLoop_ids rows ctrh).2.1

/-- C4 witness: a batch of two code-less raw records yields two records with
distinct generated non-empty ids, and the unstructured-path guarantees hold
for every row batch. -/
theorem C4_witness :
    (∃ r, normalize_api_item [("codigo", PyVal.vstr " ")] 5 = .ok (some r, 5 + 1)
      ∧ dget r "id" = .vstr (mkUuid 5) ∧ mkUuid 5 ≠ "")
    ∧ (genIds [
        [("id", PyVal.vstr "uuid-"), ("reporte", PyVal.vstr ""),
         ("referencia", PyVal.vnone), ("fecha_hora_local", PyVal.vnone),
         ("magnitud", PyVal.vnone), ("profundidad_km", PyVal.vnone),
         ("latitud", PyVal.vnone), ("longitud", PyVal.vnone),
         ("tipo_evento", PyVal.vnone), ("numero", PyVal.vnone),
         ("simulacro", PyVal.vnone), ("created_at", PyVal.vnone)],
        [("id", PyVal.vstr "uuid-f"), ("reporte", PyVal.vstr ""),
         ("referencia", PyVal.vstr "Lima"), ("fecha_hora_local", PyVal.vnone),
         ("magnitud", PyVal.vnone), ("profundidad_km", PyVal.vnone),
         ("latitud", PyVal.vnone), ("longitud", PyVal.vnone),
         ("tipo_evento", PyVal.vnone), ("numero", PyVal.vnone),
         ("simulacro", PyVal.vnone), ("created_at", PyVal.vnone)]]).Nodup
    ∧ (∀ r ∈ [
        [("id", PyVal.vstr "uuid-"), ("reporte", PyVal.vstr ""),
         ("referencia", PyVal.vnone), ("fecha_hora_local", PyVal.vnone),
         ("magnitud", PyVal.vnone), ("profundidad_km", PyVal.vnone),
         ("latitud", PyVal.vnone), ("longitud", PyVal.vnone),
         ("tipo_evento", PyVal.vnone), ("numero", PyVal.vnone),
         ("simulacro", PyVal.vnone), ("created_at", PyVal.vnone)],
        [("id", PyVal.vstr "uuid-f"), ("reporte", PyVal.vstr ""),
         ("referencia", PyVal.vstr "Lima"), ("fecha_hora_local", PyVal.vnone),
         ("magnitud", PyVal.vnone), ("profundidad_km", PyVal.vnone),
         ("latitud", PyVal.vnone), ("longitud", PyVal.vnone),
         ("tipo_evento", PyVal.vnone), ("numero", PyVal.vnone),
         ("simulacro", PyVal.vnone), ("created_at", PyVal.vnone)]],
        ∃ s, dget r "id" = .vstr s ∧ s ≠ "")
    ∧ (∀ (row : List String) (rest : List (List String)) (ctrh : Nat),
        ¬ row.length < 4 → getText (row.getD 0 "") = "" →
        ∃ r tail, (htmlLoop (row :: rest) ctrh).1 = r :: tail
          ∧ dget r "id" = .vstr (mkUuid ctrh) ∧ mkUuid ctrh ≠ "")
    ∧ (∀ (rows : List (List String)) (ctrh : Nat),
        (genIds (htmlLoop rows ctrh).1).Nodup)
    ∧ (∀ (rows : List (List String)) (ctrh : Nat),
        ∀ r ∈ (htmlLoop rows ctrh).1, ∃ s, dget r "id" = .vstr s ∧ s ≠ "") :=
  C4_generated_ids_fresh_and_distinct [("codigo", PyVal.vstr " ")] 5
    [[("codigo", PyVal.vstr "")], [("referencia", PyVal.vstr "Lima")]] _ 0 2
    (by decide) (by rfl) (by decide) (by decide) (by rfl)

/-- C8 counterexample: on a concrete raw record with an empty agency code
the Normalizer itself substitutes the generated identifier: the id of its
own output is already the fresh uuid value, so the generated-id fallback is
not left to the Orchestrator/Sink boundary. -/
theorem C8_counterexample :
    normalize_api_item [("codigo", PyVal.vstr "")] 0 =
      .ok (some [("id", .vstr (mkUuid 0)), ("reporte", .vstr ""),
        ("referencia", .vnone), ("fecha_hora_local", .vnone),
        ("magnitud", .vnone), ("profundidad_km", .vnone), ("latitud", .vnone),
        ("longitud", .vnone), ("tipo_evento", .vnone), ("numero", .vnone),
        ("simulacro", .vnone), ("created_at", .vnone)], 1)
    ∧ mkUuid 0 ≠ "" := ⟨rfl, by decide⟩

/-- C8 amended: for every structured raw record whose agency code strips to
empty, the Normalizer does not fail, and it is the Normalizer itself — not
the Orchestrator/Sink boundary — that substitutes the freshly generated
identifier into the record's id. -/
theorem C8_amended_normalizer_substitutes_id (item : PyDict) (ctr : Nat)
    (hne : item ≠ []) (hcode : stripOrEmpty (dget item "codigo") = .ok "")
    (hfecha : strLike (dget item "fecha_hora") = true) :
    ∃ r, normalize_api_item item ctr = .ok (some r, ctr + 1)
      ∧ dget r "id" = .vstr (mkUuid ctr) := by
  obtain ⟨w, hw⟩ := format_fecha_local_strLike _ hfecha
  have heq := normalize_api_item_eq item ctr "" w hne hcode hw
  simp only [ne_eq, not_true_eq_false, if_false] at heq
  refine ⟨normalizedRec item ctr "" w, heq, ?_⟩
  rw [normalizedRec_id]
  simp

/-- C8 amended witness: a concrete record with a whitespace-only code. -/
theorem C8_witness :
    ∃ r, normalize_api_item [("codigo", PyVal.vstr " "),
        ("referencia", PyVal.vstr "Lima")] 3 = .ok (some r, 3 + 1)
      ∧ dget r "id" = .vstr (mkUuid 3) :=
  C8_amended_normalizer_substitutes_id
    [("codigo", PyVal.vstr " "), ("referencia", PyVal.vstr "Lima")] 3
    (by decide) (by rfl) (by decide)

/-- C10: every record the structured path builds from a non-empty raw item
carries all twelve canonical keys as present entries, and any value the
source omits is stored as Python None (`vnone`) under its key — never as a
genuinely absent key, distinguishing structured-origin records from
unstructured-origin ones. -/
theorem C10_structured_record_has_all_keys (item : PyDict) (ctr : Nat)
    (hne : item ≠ []) (hc : strLike (dget item "codigo") = true)
    (hf : strLike (dget item "fecha_hora") = true) :
    ∃ r ctr2, normalize_api_item item ctr = .ok (some r, ctr2)
      ∧ r.map Prod.fst = twelveKeys
      ∧ (dget item "referencia" = .vnone → rget r "referencia" = some .vnone)
      ∧ (dget item "fecha_hora" = .vnone → rget r "fecha_hora_local" = some .vnone)
      ∧ (dget item "magnitud" = .vnone → rget r "magnitud" = some .vnone)
      ∧ (dget item "profundidad" = .vnone → rget r "profundidad_km" = some .vnone)
      ∧ (dget item "latitud" = .vnone → rget r "latitud" = some .vnone)
      ∧ (dget item "longitud" = .vnone → rget r "longitud" = some .vnone)
      ∧ (dget item "tipo_evento" = .vnone → rget r "tipo_evento" = some .vnone)
      ∧ (dget item "numero" = .vnone → rget r "numero" = some .vnone)
      ∧ (dget item "simulacro" = .vnone → rget r "simulacro" = some .vnone)
      ∧ (dget item "created_at" = .vnone → rget r "created_at" = some .vnone) := by
  obtain ⟨c, w, heq, hcs, hws⟩ := normalize_api_item_wf item ctr
    ((wfItem_iff item).mpr ⟨hne, hc, hf⟩)
  refine ⟨normalizedRec item ctr c w, _, heq, normalizedRec_keys item ctr c w,
    ?_, ?_, ?_, ?_, ?_, ?_, ?_, ?_, ?_, ?_⟩
  · intro h; simp [normalizedRec, rget, h]
  · intro h
    rw [h] at hws
    have hwn : w = .vnone := by
      have : Except.ok (ε := String) PyVal.vnone = .ok w := hws
      injection this with h2
      exact h2.symm
    simp [normalizedRec, rget, hwn]
  · intro h; simp [normalizedRec, rget, h]
  · intro h; simp [normalizedRec, rget, h]
  · intro h; simp [normalizedRec, rget, h]
  · intro h; simp [normalizedRec, rget, h]
  · intro h; simp [normalizedRec, rget, h]
  · intro h; simp [normalizedRec, rget, h]
  · intro h; simp [normalizedRec, rget, h]
  · intro h; simp [normalizedRec, rget, h]

/-- C10 witness: a one-field raw item (only a code) yields a record with all
twelve keys present and None stored for every omitted source value. -/
theorem C10_witness :
    ∃ r ctr2, normalize_api_item [("codigo", PyVal.vstr "2024AAA")] 0 =
        .ok (some r, ctr2)
      ∧ r.map Prod.fst = twelveKeys
      ∧ (dget [("codigo", PyVal.vstr "2024AAA")] "referencia" = .vnone →
          rget r "referencia" = some .vnone)
      ∧ (dget [("codigo", PyVal.vstr "2024AAA")] "fecha_hora" = .vnone →
          rget r "fecha_hora_local" = some .vnone)
      ∧ (dget [("codigo", PyVal.vstr "2024AAA")] "magnitud" = .vnone →
          rget r "magnitud" = some .vnone)
      ∧ (dget [("codigo", PyVal.vstr "2024AAA")] "profundidad" = .vnone →
          rget r "profundidad_km" = some .vnone)
      ∧ (dget [("codigo", PyVal.vstr "2024AAA")] "latitud" = .vnone →
          rget r "latitud" = some .vnone)
      ∧ (dget [("codigo", PyVal.vstr "2024AAA")] "longitud" = .vnone →
          rget r "longitud" = some .vnone)
      ∧ (dget [("codigo", PyVal.vstr "2024AAA")] "tipo_evento" = .vnone →
          rget r "tipo_evento" = some .vnone)
      ∧ (dget [("codigo", PyVal.vstr "2024AAA")] "numero" = .vnone →
          rget r "numero" = some .vnone)
      ∧ (dget [("codigo", PyVal.vstr "2024AAA")] "simulacro" = .vnone →
          rget r "simulacro" = some .vnone)
      ∧ (dget [("codigo", PyVal.vstr "2024AAA")] "created_at" = .vnone →
          rget r "created_at" = some .vnone) :=
  C10_structured_record_has_all_keys [("codigo", PyVal.vstr "2024AAA")] 0
    (by decide) (by decide) (by decide)

end ScrapTable
